import Mathlib

/-!
Verification of the `base` structured logger (`log.go`).

The Go source is shallowly embedded: the `StdLogger` struct becomes a Lean
structure, dynamically typed Go values (`interface{}`) become the inductive
`GoValue`, and each Go function/method of the logging core becomes a Lean
function of the same name.  The sink (`log.Logger.Output`) is modelled as a
list of written lines carried in `LogState`.  `time.Now().Format(...)` is
modelled by passing the formatted timestamp string as an explicit argument.
Go strings are modelled as Lean `String`s with positions/lengths counted in
characters (the Go code counts bytes; the two coincide on ASCII data).
-/

namespace BaseLog

/-- Embeds the Go struct `StdLogger` (log.go:58-64).  The `*log.Logger`
sink is modelled separately in `LogState`; `prefix` is renamed `pfx`. -/
structure StdLogger where
  level : String
  pfx : String
  valuesStr : String
  output : String
deriving Repr, DecidableEq

/-- Embeds `LogLevels` (log.go:40-46). -/
structure LogLevels where
  None : String
  Debug : String
  Info : String
  Error : String
  All : String

/-- Embeds `LogOutputs` (log.go:48-51). -/
structure LogOutputs where
  KeyValue : String
  JSON : String

/-- Embeds the `LogLevel` variable (log.go:80-86). -/
def LogLevel : LogLevels := ⟨"none", "debug", "info", "error", "all"⟩

/-- Embeds the `LogOutput` variable (log.go:88-91). -/
def LogOutput : LogOutputs := ⟨"keyvalue", "json"⟩

/-- Embeds the constant `noVal` (log.go:76). -/
def noVal : String := "[n/a]"

/-- Embeds `NewLogger` (log.go:95-108); the Go `flags` argument only
configures the standard-library sink and is dropped here. -/
def NewLogger (level pfx output : String) : StdLogger :=
  { level := level, pfx := pfx, valuesStr := "", output := output }

/-- Embeds `(*StdLogger).Enabled` (log.go:110-112). -/
def StdLogger.Enabled (sl : StdLogger) (level : String) : Bool :=
  sl.level == level

/-- Embeds `(*StdLogger).SetLevel` (log.go:114-116). -/
def StdLogger.SetLevel (sl : StdLogger) (level : String) : StdLogger :=
  { sl with level := level }

/-- Embeds `(*StdLogger).jsonOutput` (log.go:554-556).  Note the source
compares the `level` field (not `output`) against `LogOutput.JSON`. -/
def StdLogger.jsonOutput (sl : StdLogger) : Bool :=
  sl.level == LogOutput.JSON

/-- Models Go `strconv.IsPrint`.  Exact on the ASCII range (printable means
0x20..0x7E); beyond ASCII the Unicode tables are approximated as printable
except the C1 control block (no claim depends on non-ASCII printability). -/
def goIsPrint (c : Char) : Bool :=
  if c.toNat < 0x20 then false
  else if c.toNat ≤ 0x7E then true
  else if c.toNat ≤ 0x9F then false
  else true

/-- Hexadecimal digit for the numeric escapes of `goQuote`. -/
def hexDigit (n : Nat) : Char :=
  if n < 10 then Char.ofNat (48 + n) else Char.ofNat (87 + n)

/-- Lowercase, zero-padded hexadecimal of width `w` (as in the Go escapes `\xHH`,
`\uHHHH`, `\UHHHHHHHH` escapes). -/
def hexPad (w n : Nat) : String :=
  String.mk ((List.range w).map (fun i => hexDigit (n / 16 ^ (w - 1 - i) % 16)))

/-- Models Go `strconv.Quote` on a single character (double-quote context). -/
def quoteChar (c : Char) : String :=
  if c = '"' then "\\\""
  else if c = '\\' then "\\\\"
  else if goIsPrint c then String.singleton c
  else if c = Char.ofNat 7 then "\\a"
  else if c = Char.ofNat 8 then "\\b"
  else if c = Char.ofNat 12 then "\\f"
  else if c = Char.ofNat 10 then "\\n"
  else if c = Char.ofNat 13 then "\\r"
  else if c = Char.ofNat 9 then "\\t"
  else if c = Char.ofNat 11 then "\\v"
  else if c.toNat < 0x20 ∨ c.toNat = 0x7F then "\\x" ++ hexPad 2 c.toNat
  else if c.toNat < 0x10000 then "\\u" ++ hexPad 4 c.toNat
  else "\\U" ++ hexPad 8 c.toNat

/-- Models Go `strconv.Quote`: a double-quoted, fully escaped string. -/
def goQuote (s : String) : String :=
  "\"" ++ String.join (s.data.map quoteChar) ++ "\""

/-- Embeds `(*StdLogger).escape` (log.go:544-552): does the string need the
full escaping pass? -/
def StdLogger.escape (_sl : StdLogger) (str : String) : Bool :=
  str.data.any (fun s => !goIsPrint s || s == '\\' || s == '"')

/-- Embeds `(*StdLogger).prettify` (log.go:321-333). -/
def StdLogger.prettify (sl : StdLogger) (str : String) : String :=
  if sl.escape str then goQuote str
  else "\"" ++ str ++ "\""

mutual
/-- Embeds a Go `interface{}` value as seen by `prettifyValue`.  Constructors
mirror the dynamic cases the source dispatches on: primitive kinds, the
`Marshalable`/`fmt.Stringer`/`error` capabilities, nil interfaces, structs,
slices/arrays, maps, and pointers; `vOther` stands for any remaining
reflect kind (chan, func, ...) carrying its kind name. -/
inductive GoValue where
  | vBool (b : Bool)
  | vString (s : String)
  | vInt (i : Int)
  | vUint (n : Nat)
  | vNil
  | vStringer (s : String)
  | vError (s : String)
  | vMarshalable (logResult : GoValue)
  | vStruct (fields : List GoField)
  | vSlice (elems : List GoValue)
  | vMap (keyKindIsString : Bool) (entries : List GoMapEntry)
  | vPtrNil
  | vPtr (elem : GoValue)
  | vOther (kind : String)

/-- One reflected struct field: declared name, `PkgPath` (non-empty exactly
for unexported fields), `CanInterface`, the optional `json` tag, the
`Anonymous` flag, whether the type of the field has struct kind, and its value. -/
inductive GoField where
  | mk (name : String) (pkgPath : String) (canInterface : Bool)
       (tag : Option String) (anonymous : Bool) (typeIsStruct : Bool)
       (value : GoValue)

/-- One map entry as seen by the map-rendering loop: either the key
implements `encoding.TextMarshaler` (with a successful or failing
`MarshalText`), or it is rendered as a plain value. -/
inductive GoMapEntry where
  | plainKey (k : GoValue) (v : GoValue)
  | marshalKeyOk (txt : String) (v : GoValue)
  | marshalKeyErr (msg : String) (v : GoValue)
end

def GoField.name : GoField → String
  | .mk n _ _ _ _ _ _ => n

def GoField.pkgPath : GoField → String
  | .mk _ p _ _ _ _ _ => p

def GoField.canInterface : GoField → Bool
  | .mk _ _ c _ _ _ _ => c

def GoField.tag : GoField → Option String
  | .mk _ _ _ t _ _ _ => t

def GoField.anonymous : GoField → Bool
  | .mk _ _ _ _ a _ _ => a

def GoField.typeIsStruct : GoField → Bool
  | .mk _ _ _ _ _ s _ => s

def GoField.value : GoField → GoValue
  | .mk _ _ _ _ _ _ v => v

/-- Models Go `strings.HasPrefix` on character lists. -/
def charsLeadWith : List Char → List Char → Bool
  | _, [] => true
  | [], _ :: _ => false
  | c :: cs, p :: ps => c == p && charsLeadWith cs ps

/-- Models Go `strings.Contains` on character lists. -/
def charsContain (s pat : List Char) : Bool :=
  match s with
  | [] => pat.isEmpty
  | _ :: cs => charsLeadWith s pat || charsContain cs pat

/-- Models Go `strings.HasSuffix` on character lists. -/
def charsHaveSuffix (s pat : List Char) : Bool :=
  charsLeadWith s.reverse pat.reverse

/-- Embeds the `json` tag parsing of `prettifyValue` (log.go:424-442).
Returns `(name, omitempty, skipField)`.  As in the source, `rest` keeps its
leading comma, so `,omitempty` is detected by infix `",omitempty,"` or
suffix `",omitempty"`. -/
def parseJsonTag : Option String → String × Bool × Bool
  | Option.none => ("", false, false)
  | Option.some tag =>
    if tag = "-" then ("", false, true)
    else
      match tag.data.findIdx? (· = ',') with
      | Option.some comma =>
        let n := tag.take comma
        let name := if n ≠ "" then n else ""
        let rest := tag.drop comma
        let omitempty :=
          charsContain rest.data ",omitempty,".data ||
          charsHaveSuffix rest.data ",omitempty".data
        (name, omitempty, false)
      | Option.none => (tag, false, false)

/-- Embeds `(*StdLogger).isEmpty` (log.go:524-542), by reflect kind. -/
def StdLogger.isEmpty (_sl : StdLogger) : GoValue → Bool
  | .vSlice l => decide (l.length = 0)
  | .vMap _ entries => decide (entries.length = 0)
  | .vString s => decide (s.length = 0)
  | .vBool b => !b
  | .vInt i => decide (i = 0)
  | .vUint n => decide (n = 0)
  | .vNil => true
  | .vPtrNil => true
  | _ => false

mutual
/-- Embeds `(*StdLogger).prettifyValue` (log.go:335-522).  The one-shot
`Marshalable` unwrap (log.go:338-340) substitutes the `Log()` result before
the dispatch in `prettifyValueCore`. -/
def StdLogger.prettifyValue (sl : StdLogger) : GoValue → String
  | .vMarshalable r => prettifyValueCore sl r
  | v => prettifyValueCore sl v
termination_by v => (sizeOf v, 2)

/-- The dispatch of `prettifyValue` after the `Marshalable` unwrap: the
`fmt.Stringer`/`error` substitutions, the primitive type switch, and the
reflect-based switch (log.go:342-522).  A nested `vMarshalable` denotes a
value whose reflect-visible shape is that of its `Log()` result; the core
never invokes `Log()` again. -/
def prettifyValueCore (sl : StdLogger) : GoValue → String
  | .vMarshalable r => prettifyValueCore sl r
  | .vStringer s => sl.prettify s
  | .vError s => sl.prettify s
  | .vBool b => if b then "true" else "false"
  | .vString s => sl.prettify s
  | .vInt i => toString i
  | .vUint n => toString n
  | .vNil => "null"
  | .vStruct fields => "\x7b" ++ structBody sl fields 0 ++ "\x7d"
  | .vSlice elems => "[" ++ sliceBody sl elems 0 ++ "]"
  | .vMap ks entries => "\x7b" ++ mapBody sl ks entries 0 ++ "\x7d"
  | .vPtrNil => "null"
  | .vPtr e => StdLogger.prettifyValue sl e
  | .vOther kind => "\"[" ++ kind ++ "]\""
termination_by v => (sizeOf v, 1)

/-- Embeds the struct-field loop of `prettifyValue` (log.go:414-463);
`i` is the declared field index driving the `i > 0` comma test.  The
reflected field is destructured into (name, PkgPath, CanInterface, tag,
Anonymous, struct-kind, value) as carried by `GoField`. -/
def structBody (sl : StdLogger) : List GoField → Nat → String
  | [], _ => ""
  | GoField.mk fname pkgPath canInterface tag anonymous typeIsStruct value :: rest, i =>
    if pkgPath ≠ "" then structBody sl rest (i + 1)
    else if canInterface = false then structBody sl rest (i + 1)
    else
      match parseJsonTag tag with
      | (name, omitempty, skip) =>
        if skip then structBody sl rest (i + 1)
        else if omitempty && sl.isEmpty value then structBody sl rest (i + 1)
        else
          let sep := if i > 0 then "," else ""
          if anonymous && typeIsStruct && name = "" then
            sep ++ StdLogger.prettifyValue sl value ++ structBody sl rest (i + 1)
          else
            let nm := if name = "" then fname else name
            sep ++ "\"" ++ nm ++ "\":" ++ StdLogger.prettifyValue sl value
              ++ structBody sl rest (i + 1)
termination_by fields _ => (sizeOf fields, 0)

/-- Embeds the slice/array loop of `prettifyValue` (log.go:469-481). -/
def sliceBody (sl : StdLogger) : List GoValue → Nat → String
  | [], _ => ""
  | e :: rest, i =>
    (if i > 0 then "," else "") ++ StdLogger.prettifyValue sl e
      ++ sliceBody sl rest (i + 1)
termination_by elems _ => (sizeOf elems, 0)

/-- Embeds the map loop of `prettifyValue` (log.go:483-513). -/
def mapBody (sl : StdLogger) (ks : Bool) : List GoMapEntry → Nat → String
  | [], _ => ""
  | ent :: rest, i =>
    (if i > 0 then "," else "") ++ mapEntryStr sl ks ent
      ++ mapBody sl ks rest (i + 1)
termination_by entries _ => (sizeOf entries, 1)

/-- Embeds one iteration of the map loop (log.go:487-511): the key via
`MarshalText` (quoting its text, or embedding the error message) or via
`prettifyValue` (force-quoted when the declared key kind is not string),
then `:` and the rendered value. -/
def mapEntryStr (sl : StdLogger) (ks : Bool) : GoMapEntry → String
  | .marshalKeyOk txt v =>
    sl.prettify txt ++ ":" ++ StdLogger.prettifyValue sl v
  | .marshalKeyErr msg v =>
    sl.prettify ("<error-MarshalText: " ++ msg ++ ">") ++ ":"
      ++ StdLogger.prettifyValue sl v
  | .plainKey k v =>
    (if ks then StdLogger.prettifyValue sl k
     else sl.prettify (StdLogger.prettifyValue sl k)) ++ ":"
      ++ StdLogger.prettifyValue sl v
termination_by ent => (sizeOf ent, 0)
end

/-- Embeds `(*StdLogger).stringify` (log.go:310-319): render, then truncate
to at most `maxLen = 16` (`stringed[:16]`, modelled at character level). -/
def StdLogger.stringify (sl : StdLogger) (val : GoValue) : String :=
  let stringed := sl.prettifyValue val
  if stringed.length > 16 then String.mk (stringed.data.take 16) else stringed

/-- Embeds `(*StdLogger).nonStringKey` (log.go:306-308); `fmt.Sprintf("%s", s)`
of a string is the string itself. -/
def StdLogger.nonStringKey (sl : StdLogger) (v : GoValue) : String :=
  sl.stringify v

/-- The key coercion applied at even positions by `rectify` (log.go:253-258):
a Go `string` passes the type assertion unchanged, anything else is replaced
by `nonStringKey`. -/
def coerceKey (sl : StdLogger) : GoValue → GoValue
  | .vString s => .vString s
  | v => .vString (sl.nonStringKey v)

/-- The `i += 2` loop of `rectify` (log.go:253-258), two items at a time:
even positions are keys, odd positions are values.  (The singleton case is
unreachable after the odd-length padding.) -/
def rectifyLoop (sl : StdLogger) : List GoValue → List GoValue
  | [] => []
  | [k] => [coerceKey sl k]
  | k :: v :: rest => coerceKey sl k :: v :: rectifyLoop sl rest

/-- Embeds `(*StdLogger).rectify` (log.go:248-261): pad an odd-length list
with the `noVal` sentinel, then coerce every key position to a string. -/
def StdLogger.rectify (sl : StdLogger) (kvList : List GoValue) : List GoValue :=
  let kvList := if kvList.length % 2 ≠ 0 then kvList ++ [.vString noVal] else kvList
  rectifyLoop sl kvList

/-- The `i += 2` loop of `makeFlat` (log.go:268-302): separator (`,` in JSON
mode, space in flat mode) before every pair except the first unless `keepOn`;
key either escaped (`prettify`) or written between bare double quotes; then
`:` or `=` and the rendered value. -/
def makeFlatLoop (sl : StdLogger) : List GoValue → Nat → Bool → Bool → String
  | [], _, _, _ => ""
  | [_], _, _, _ => ""
  | k :: v :: rest, i, keepOn, escapeKeys =>
    let kStr := match k with
      | .vString s => s
      | other => sl.nonStringKey other
    (if i > 0 || keepOn then (if sl.jsonOutput then "," else " ") else "")
      ++ (if escapeKeys then sl.prettify kStr else "\"" ++ kStr ++ "\"")
      ++ (if sl.jsonOutput then ":" else "=")
      ++ sl.prettifyValue v
      ++ makeFlatLoop sl rest (i + 2) keepOn escapeKeys

/-- Embeds `(*StdLogger).makeFlat` (log.go:263-304), as the string appended
to the buffer (the Go return of the mutated slice is unused by
its caller).  Like the source it re-pads an odd list before the loop, so the
loop never sees a trailing unpaired key. -/
def StdLogger.makeFlat (sl : StdLogger) (kvList : List GoValue)
    (keepOn escapeKeys : Bool) : String :=
  let kvList := if kvList.length % 2 ≠ 0 then kvList ++ [.vString noVal] else kvList
  makeFlatLoop sl kvList 0 keepOn escapeKeys

/-- Embeds `(*StdLogger).render` (log.go:210-246): optional opening brace,
rectified implicit fields, the pre-rendered bound `valuesStr` (with its
separator when something precedes it), rectified call-site fields with
escaped keys, optional closing brace. -/
def StdLogger.render (sl : StdLogger) (implicit args : List GoValue) : String :=
  let head := if sl.jsonOutput then "\x7b" else ""
  let s1 := sl.makeFlat (sl.rectify implicit) false false
  let keepOn := decide (implicit.length > 0)
  let s2 :=
    if sl.valuesStr.length > 0 then
      (if keepOn then (if sl.jsonOutput then "," else " ") else "") ++ sl.valuesStr
    else ""
  let keepOn2 := if sl.valuesStr.length > 0 then true else keepOn
  let s3 := sl.makeFlat (sl.rectify args) keepOn2 true
  let tail := if sl.jsonOutput then "\x7d" else ""
  head ++ s1 ++ s2 ++ s3 ++ tail

/-- The implicit-field list built by `FormatDebug`/`FormatInfo`
(log.go:152-182): in JSON mode a `logger` field carrying the prefix, then
`ts` and `msg`.  `time.Now().Format(timestampFmt)` is modelled by the
explicit `ts` argument. -/
def StdLogger.messageArgs (sl : StdLogger) (ts msg : String) : List GoValue :=
  (if sl.jsonOutput then [.vString "logger", .vString sl.pfx] else [])
    ++ [.vString "ts", .vString ts, .vString "msg", .vString msg]

/-- The value appended under the `error` key by `FormatError`
(log.go:199-205): `var logErr interface{}` stays a nil interface when the
error is nil, otherwise it holds `err.Error()`. -/
def errVal : Option String → GoValue
  | Option.none => .vNil
  | Option.some e => .vString e

/-- The implicit-field list built by `FormatError` (log.go:186-207): the
`messageArgs` fields followed by the `error` field. -/
def StdLogger.errorArgs (sl : StdLogger) (ts msg : String) (err : Option String) :
    List GoValue :=
  sl.messageArgs ts msg ++ [.vString "error", errVal err]

/-- The prefix returned by the formatters: cleared in JSON mode
(log.go:156-159 etc.), otherwise the configured prefix. -/
def StdLogger.fmtPfx (sl : StdLogger) : String :=
  if sl.jsonOutput then "" else sl.pfx

/-- Embeds `(*StdLogger).FormatDebug` (log.go:152-165). -/
def StdLogger.FormatDebug (sl : StdLogger) (ts msg : String)
    (kvList : List GoValue) : String × String :=
  (sl.fmtPfx, sl.render (sl.messageArgs ts msg) kvList)

/-- Embeds `(*StdLogger).FormatInfo` (log.go:169-182); identical in body to
`FormatDebug`. -/
def StdLogger.FormatInfo (sl : StdLogger) (ts msg : String)
    (kvList : List GoValue) : String × String :=
  (sl.fmtPfx, sl.render (sl.messageArgs ts msg) kvList)

/-- Embeds `(*StdLogger).FormatError` (log.go:186-208). -/
def StdLogger.FormatError (sl : StdLogger) (ts : String) (err : Option String)
    (msg : String) (kvList : List GoValue) : String × String :=
  (sl.fmtPfx, sl.render (sl.errorArgs ts msg err) kvList)

/-- A logger together with its sink: the lines written so far through
`(*log.Logger).Output` (each call appends exactly one line). -/
structure LogState where
  sl : StdLogger
  sink : List String

/-- The prefix gluing shared by `Debug`/`Info`/`Error` (log.go:121-123 etc.):
a non-empty prefix is prepended as `prefix + ": "`. -/
def glueLine (pfx args : String) : String :=
  if pfx ≠ "" then pfx ++ ": " ++ args else args

/-- Embeds `(*StdLogger).Debug` (log.go:118-126): format, glue the prefix,
write one line to the sink.  No level check appears in the source. -/
def LogState.Debug (st : LogState) (ts msg : String) (kvList : List GoValue) :
    LogState :=
  let (pfx, args) := st.sl.FormatDebug ts msg kvList
  { st with sink := st.sink ++ [glueLine pfx args] }

/-- Embeds `(*StdLogger).Info` (log.go:128-136). -/
def LogState.Info (st : LogState) (ts msg : String) (kvList : List GoValue) :
    LogState :=
  let (pfx, args) := st.sl.FormatInfo ts msg kvList
  { st with sink := st.sink ++ [glueLine pfx args] }

/-- Embeds `(*StdLogger).Error` (log.go:138-146); the Go `err error`
argument is modelled by the optional message `err.Error()` would return. -/
def LogState.Error (st : LogState) (ts : String) (err : Option String)
    (msg : String) (kvList : List GoValue) : LogState :=
  let (pfx, args) := st.sl.FormatError ts err msg kvList
  { st with sink := st.sink ++ [glueLine pfx args] }

/-! ### Specification-side renditions

The following definitions follow the wording of the specification/claims
(not the source); the theorems below compare the source embedding against
them. -/

/-- Spec rendition: an odd-length field list is padded with the sentinel
`"[n/a]"` as its final value. -/
def padSpec (l : List GoValue) : List GoValue :=
  if l.length % 2 = 1 then l ++ [.vString noVal] else l

/-- Spec rendition: a key position keeps a string item unchanged and
replaces a non-string item by its rendered value truncated to at most 16
characters. -/
def keySpec (sl : StdLogger) : GoValue → GoValue
  | .vString s => .vString s
  | v => .vString (String.mk ((sl.prettifyValue v).data.take 16))

/-- Spec rendition of key/value normalization: after sentinel padding, the
items at even indices are (coerced) keys and items at odd indices are
untouched values. -/
def rectifySpec (sl : StdLogger) (l : List GoValue) : List GoValue :=
  (List.enumFrom 0 (padSpec l)).map
    (fun p => if p.1 % 2 = 0 then keySpec sl p.2 else p.2)

/-- Spec rendition (amended C4): is a struct field emitted?  Exported,
interfaceable, not tagged `-`, and not an empty `omitempty` field. -/
def fieldEmitted (sl : StdLogger) (f : GoField) : Bool :=
  f.pkgPath == "" && f.canInterface &&
    !(parseJsonTag f.tag).2.2 &&
    !((parseJsonTag f.tag).2.1 && sl.isEmpty f.value)

/-- Spec rendition (amended C4): the text of one emitted field.  An
anonymous struct field without a renamed tag contributes its own full
rendering (braces included) with no key; otherwise `"name":value` with the
tag name overriding the declared name. -/
def fieldEntry (sl : StdLogger) (f : GoField) : String :=
  let name := (parseJsonTag f.tag).1
  if f.anonymous && f.typeIsStruct && name = "" then sl.prettifyValue f.value
  else
    "\"" ++ (if name = "" then f.name else name) ++ "\":" ++ sl.prettifyValue f.value

/-- Spec rendition (amended C4) of a struct body: each field contributes
nothing when omitted, and otherwise its entry preceded by a comma exactly
when its declared index is positive (even if every earlier field was
omitted). -/
def structBodySpec (sl : StdLogger) (fields : List GoField) : String :=
  ((List.enumFrom 0 fields).map
    (fun p =>
      if fieldEmitted sl p.2 then
        (if p.1 > 0 then "," else "") ++ fieldEntry sl p.2
      else "")).foldr (· ++ ·) ""

/-! ### Helper lemmas -/

theorem stringify_eq_take (sl : StdLogger) (v : GoValue) :
    sl.stringify v = String.mk ((sl.prettifyValue v).data.take 16) := by
  unfold StdLogger.stringify
  by_cases h : (sl.prettifyValue v).length > 16
  · simp [h]
  · have hd : (sl.prettifyValue v).length = (sl.prettifyValue v).data.length := rfl
    have hle : (sl.prettifyValue v).data.length ≤ 16 := by
      have := Nat.le_of_not_lt h
      omega
    simp [h, List.take_of_length_le hle]

theorem coerceKey_eq_keySpec (sl : StdLogger) (v : GoValue) :
    coerceKey sl v = keySpec sl v := by
  cases v <;>
    simp [coerceKey, keySpec, StdLogger.nonStringKey, stringify_eq_take]

theorem rectifyLoop_enum (sl : StdLogger) :
    ∀ (l : List GoValue) (i : Nat), i % 2 = 0 →
      rectifyLoop sl l =
        (List.enumFrom i l).map (fun p => if p.1 % 2 = 0 then keySpec sl p.2 else p.2)
  | [], _, _ => by simp [rectifyLoop]
  | [k], i, hi => by
    simp [rectifyLoop, List.enumFrom, hi, coerceKey_eq_keySpec]
  | k :: v :: rest, i, hi => by
    have hi1 : (i + 1) % 2 = 1 := by omega
    have hi2 : (i + 2) % 2 = 0 := by omega
    simp [rectifyLoop, List.enumFrom, hi, hi1, coerceKey_eq_keySpec,
      rectifyLoop_enum sl rest (i + 2) hi2]

theorem rectify_eq_spec (sl : StdLogger) (l : List GoValue) :
    sl.rectify l = rectifySpec sl l := by
  unfold StdLogger.rectify rectifySpec padSpec
  rcases Nat.mod_two_eq_zero_or_one l.length with h | h
  · simp only [h]
    simpa using rectifyLoop_enum sl l 0 rfl
  · simp only [h]
    simpa using rectifyLoop_enum sl (l ++ [.vString noVal]) 0 rfl

theorem structBody_enum (sl : StdLogger) :
    ∀ (fields : List GoField) (i : Nat),
      structBody sl fields i =
        ((List.enumFrom i fields).map
          (fun p =>
            if fieldEmitted sl p.2 then
              (if p.1 > 0 then "," else "") ++ fieldEntry sl p.2
            else "")).foldr (· ++ ·) ""
  | [], _ => by simp [structBody]
  | GoField.mk n pp ci tg an ts v :: rest, i => by
    have ih := structBody_enum sl rest (i + 1)
    rcases htag : parseJsonTag tg with ⟨name, omitempty, skip⟩
    by_cases hpp : pp = ""
    · by_cases hci : ci = true
      · by_cases hskip : skip = true
        · simp [structBody, List.enumFrom, fieldEmitted, fieldEntry,
            GoField.pkgPath, GoField.canInterface, GoField.tag, GoField.value,
            GoField.name, GoField.anonymous, GoField.typeIsStruct,
            htag, hpp, hci, hskip, ih, String.append_assoc]
        · by_cases ho : omitempty = true
          · by_cases he : sl.isEmpty v = true
            · simp [structBody, List.enumFrom, fieldEmitted, fieldEntry,
                GoField.pkgPath, GoField.canInterface, GoField.tag, GoField.value,
                GoField.name, GoField.anonymous, GoField.typeIsStruct,
                htag, hpp, hci, hskip, ho, he, ih]
            · simp [structBody, List.enumFrom, fieldEmitted, fieldEntry,
                GoField.pkgPath, GoField.canInterface, GoField.tag, GoField.value,
                GoField.name, GoField.anonymous, GoField.typeIsStruct,
                htag, hpp, hci, hskip, ho, he, ih, String.append_assoc]
              split_ifs <;> simp [String.append_assoc]
          · simp [structBody, List.enumFrom, fieldEmitted, fieldEntry,
              GoField.pkgPath, GoField.canInterface, GoField.tag, GoField.value,
              GoField.name, GoField.anonymous, GoField.typeIsStruct,
              htag, hpp, hci, hskip, ho, ih, String.append_assoc]
            split_ifs <;> simp [String.append_assoc]
      · simp [structBody, List.enumFrom, fieldEmitted,
          GoField.pkgPath, GoField.canInterface,
          hpp, hci, ih]
    · simp [structBody, List.enumFrom, fieldEmitted,
        GoField.pkgPath, GoField.canInterface,
        hpp, ih]

theorem escape_indep (sl sl' : StdLogger) (s : String) :
    sl.escape s = sl'.escape s := rfl

theorem prettify_indep (sl sl' : StdLogger) (s : String) :
    sl.prettify s = sl'.prettify s := rfl

theorem isEmpty_indep (sl sl' : StdLogger) (v : GoValue) :
    sl.isEmpty v = sl'.isEmpty v := by
  cases v <;> rfl

mutual
theorem prettifyValue_indep (sl sl' : StdLogger) :
    (v : GoValue) → sl.prettifyValue v = sl'.prettifyValue v
  | .vBool b => by
    simp only [StdLogger.prettifyValue]; exact prettifyValueCore_indep sl sl' (.vBool b)
  | .vString s => by
    simp only [StdLogger.prettifyValue]; exact prettifyValueCore_indep sl sl' (.vString s)
  | .vInt i => by
    simp only [StdLogger.prettifyValue]; exact prettifyValueCore_indep sl sl' (.vInt i)
  | .vUint n => by
    simp only [StdLogger.prettifyValue]; exact prettifyValueCore_indep sl sl' (.vUint n)
  | .vNil => by
    simp only [StdLogger.prettifyValue]; exact prettifyValueCore_indep sl sl' .vNil
  | .vStringer s => by
    simp only [StdLogger.prettifyValue]; exact prettifyValueCore_indep sl sl' (.vStringer s)
  | .vError s => by
    simp only [StdLogger.prettifyValue]; exact prettifyValueCore_indep sl sl' (.vError s)
  | .vMarshalable r => by
    simp only [StdLogger.prettifyValue]; exact prettifyValueCore_indep sl sl' r
  | .vStruct fields => by
    simp only [StdLogger.prettifyValue]; exact prettifyValueCore_indep sl sl' (.vStruct fields)
  | .vSlice elems => by
    simp only [StdLogger.prettifyValue]; exact prettifyValueCore_indep sl sl' (.vSlice elems)
  | .vMap ks entries => by
    simp only [StdLogger.prettifyValue]; exact prettifyValueCore_indep sl sl' (.vMap ks entries)
  | .vPtrNil => by
    simp only [StdLogger.prettifyValue]; exact prettifyValueCore_indep sl sl' .vPtrNil
  | .vPtr e => by
    simp only [StdLogger.prettifyValue]; exact prettifyValueCore_indep sl sl' (.vPtr e)
  | .vOther kind => by
    simp only [StdLogger.prettifyValue]; exact prettifyValueCore_indep sl sl' (.vOther kind)
termination_by v => (sizeOf v, 3)

theorem prettifyValueCore_indep (sl sl' : StdLogger) :
    (v : GoValue) → prettifyValueCore sl v = prettifyValueCore sl' v
  | .vBool b => by simp only [prettifyValueCore]
  | .vString s => by simp only [prettifyValueCore]; rfl
  | .vInt i => by simp only [prettifyValueCore]
  | .vUint n => by simp only [prettifyValueCore]
  | .vNil => by simp only [prettifyValueCore]
  | .vStringer s => by simp only [prettifyValueCore]; rfl
  | .vError s => by simp only [prettifyValueCore]; rfl
  | .vMarshalable r => by
    simp only [prettifyValueCore]; exact prettifyValueCore_indep sl sl' r
  | .vStruct fields => by
    simp only [prettifyValueCore]
    rw [structBody_indep sl sl' fields 0]
  | .vSlice elems => by
    simp only [prettifyValueCore]
    rw [sliceBody_indep sl sl' elems 0]
  | .vMap ks entries => by
    simp only [prettifyValueCore]
    rw [mapBody_indep sl sl' ks entries 0]
  | .vPtrNil => by simp only [prettifyValueCore]
  | .vPtr e => by
    simp only [prettifyValueCore]; exact prettifyValue_indep sl sl' e
  | .vOther kind => by simp only [prettifyValueCore]
termination_by v => (sizeOf v, 2)

theorem structBody_indep (sl sl' : StdLogger) :
    (fields : List GoField) → (i : Nat) → structBody sl fields i = structBody sl' fields i
  | [], _ => by simp only [structBody]
  | GoField.mk n pp ci tg an ts v :: rest, i => by
    simp only [structBody, isEmpty_indep sl sl' v, prettifyValue_indep sl sl' v,
      structBody_indep sl sl' rest (i + 1)]
termination_by fields _ => (sizeOf fields, 0)

theorem sliceBody_indep (sl sl' : StdLogger) :
    (elems : List GoValue) → (i : Nat) → sliceBody sl elems i = sliceBody sl' elems i
  | [], _ => by simp only [sliceBody]
  | e :: rest, i => by
    simp only [sliceBody, prettifyValue_indep sl sl' e,
      sliceBody_indep sl sl' rest (i + 1)]
termination_by elems _ => (sizeOf elems, 0)

theorem mapBody_indep (sl sl' : StdLogger) :
    (ks : Bool) → (entries : List GoMapEntry) → (i : Nat) →
      mapBody sl ks entries i = mapBody sl' ks entries i
  | _, [], _ => by simp only [mapBody]
  | ks, ent :: rest, i => by
    simp only [mapBody, mapEntryStr_indep sl sl' ks ent,
      mapBody_indep sl sl' ks rest (i + 1)]
termination_by _ entries _ => (sizeOf entries, 1)

theorem mapEntryStr_indep (sl sl' : StdLogger) :
    (ks : Bool) → (ent : GoMapEntry) → mapEntryStr sl ks ent = mapEntryStr sl' ks ent
  | ks, .plainKey k v => by
    simp only [mapEntryStr, prettifyValue_indep sl sl' k, prettifyValue_indep sl sl' v,
      prettify_indep sl sl']
  | ks, .marshalKeyOk txt v => by
    simp only [mapEntryStr, prettifyValue_indep sl sl' v, prettify_indep sl sl']
  | ks, .marshalKeyErr msg v => by
    simp only [mapEntryStr, prettifyValue_indep sl sl' v, prettify_indep sl sl']
termination_by _ ent => (sizeOf ent, 0)
end

theorem escape_iff (sl : StdLogger) (s : String) :
    sl.escape s = true ↔ ∃ c ∈ s.data, ¬goIsPrint c = true ∨ c = '\\' ∨ c = '"' := by
  simp [StdLogger.escape, List.any_eq_true, Bool.or_eq_true, Bool.not_eq_true']
  constructor <;> rintro ⟨c, hc, h⟩ <;> exact ⟨c, hc, by tauto⟩

/-! ### Claims -/

/-- C1: the claim says the output mode is fixed by the `output` selector
given at construction and that `SetLevel` cannot change it.  The code
decides JSON mode by `level == "json"` instead (`jsonOutput`, log.go:554):
a logger constructed with output `"json"` and level `"info"` renders flat
lines without braces, while `SetLevel "json"` on a `"keyvalue"` logger
switches it to JSON framing. -/
theorem C1_output_selector_ignored :
    (NewLogger "info" "svc" "json").output = "json" ∧
    (NewLogger "info" "svc" "json").jsonOutput = false ∧
    (LogState.Info ⟨NewLogger "info" "svc" "json", []⟩ "T" "hi" []).sink
      = ["svc: \"ts\"=\"T\" \"msg\"=\"hi\""] ∧
    ((NewLogger "info" "svc" "keyvalue").SetLevel "json").output = "keyvalue" ∧
    ((NewLogger "info" "svc" "keyvalue").SetLevel "json").jsonOutput = true ∧
    (LogState.Info ⟨(NewLogger "info" "svc" "keyvalue").SetLevel "json", []⟩ "T" "hi" []).sink
      = ["\x7b\"logger\":\"svc\",\"ts\":\"T\",\"msg\":\"hi\"\x7d"] := by
  refine ⟨rfl, by decide, ?_, rfl, by decide, ?_⟩ <;>
    simp [LogState.Info, StdLogger.FormatInfo, StdLogger.fmtPfx,
      StdLogger.messageArgs, StdLogger.render, StdLogger.jsonOutput,
      StdLogger.rectify, rectifyLoop, coerceKey, StdLogger.makeFlat,
      makeFlatLoop, StdLogger.prettifyValue, prettifyValueCore,
      StdLogger.prettify, StdLogger.escape, NewLogger, StdLogger.SetLevel,
      LogOutput, glueLine, goIsPrint]

/-- C2 counterexample: a logger whose level enables nothing (`Enabled`
answers `false` for `"debug"`) still writes a line on `Debug` — no level
check guards the write (log.go:118-126 never consults `Enabled`). -/
theorem C2_counterexample :
    (NewLogger "none" "" "keyvalue").Enabled "debug" = false ∧
    (LogState.Debug ⟨NewLogger "none" "" "keyvalue", []⟩ "T" "hi" []).sink.length = 1 := by
  constructor
  · decide
  · simp [LogState.Debug]

/-- C2 amended: `Debug`/`Info`/`Error` perform no level check at all: for
every logger state (hence every configured level) each call writes exactly
one composed line to the sink, unconditionally. -/
theorem C2_no_level_gate :
    ∀ (st : LogState) (ts msg : String) (kv : List GoValue) (err : Option String),
    (st.Debug ts msg kv).sink
      = st.sink ++ [glueLine st.sl.fmtPfx (st.sl.render (st.sl.messageArgs ts msg) kv)] ∧
    (st.Info ts msg kv).sink
      = st.sink ++ [glueLine st.sl.fmtPfx (st.sl.render (st.sl.messageArgs ts msg) kv)] ∧
    (st.Error ts err msg kv).sink
      = st.sink ++ [glueLine st.sl.fmtPfx (st.sl.render (st.sl.errorArgs ts msg err) kv)] := by
  intro st ts msg kv err
  refine ⟨?_, ?_, ?_⟩ <;>
    simp [LogState.Debug, LogState.Info, LogState.Error,
      StdLogger.FormatDebug, StdLogger.FormatInfo, StdLogger.FormatError]

/-- C3: `Enabled` is an exact string match between the configured level and
the queried level — no severity hierarchy; in particular a `"debug"` logger
enables only `"debug"`, not `"info"`. -/
theorem C3_enabled_exact_match :
    ∀ (L M pfx vs out : String),
    (StdLogger.Enabled ⟨L, pfx, vs, out⟩ M = true ↔ L = M) ∧
    (NewLogger "debug" "p" "keyvalue").Enabled "debug" = true ∧
    (NewLogger "debug" "p" "keyvalue").Enabled "info" = false := by
  intro L M pfx vs out
  refine ⟨?_, by decide, by decide⟩
  simp [StdLogger.Enabled]

/-- C4 counterexample: the separator test of the struct renderer uses the
declared field index (`i > 0`, log.go:447), so a struct whose first field
is skipped (tag `-`) renders with a leading comma, `{,"B":"x"}`, not the
claimed entries-only `{"B":"x"}`; and an anonymous embedded struct field is
rendered with its own braces in place, `{{"X":1}}`, not spliced to
`{"X":1}`. -/
theorem C4_counterexample :
    ((NewLogger "info" "" "keyvalue").prettifyValue (.vStruct
        [GoField.mk "A" "" true (Option.some "-") false false (.vInt 1),
         GoField.mk "B" "" true Option.none false false (.vString "x")])
      = "\x7b,\"B\":\"x\"\x7d") ∧
    ((NewLogger "info" "" "keyvalue").prettifyValue (.vStruct
        [GoField.mk "A" "" true (Option.some "-") false false (.vInt 1),
         GoField.mk "B" "" true Option.none false false (.vString "x")])
      ≠ "\x7b\"B\":\"x\"\x7d") ∧
    ((NewLogger "info" "" "keyvalue").prettifyValue (.vStruct
        [GoField.mk "Emb" "" true Option.none true true (.vStruct
           [GoField.mk "X" "" true Option.none false false (.vInt 1)])])
      = "\x7b\x7b\"X\":1\x7d\x7d") := by
  refine ⟨?_, ?_, ?_⟩ <;>
    simp [StdLogger.prettifyValue, prettifyValueCore, structBody, parseJsonTag,
      GoField.pkgPath, GoField.canInterface, GoField.tag, GoField.value,
      GoField.name, GoField.anonymous, GoField.typeIsStruct,
      StdLogger.isEmpty, StdLogger.prettify, StdLogger.escape, goIsPrint] <;>
    decide

/-- C4 amended: a struct renders as `{` ++ body ++ `}` where each field
contributes nothing when omitted (unexported, tag `-`, or empty with
`omitempty`) and otherwise contributes its entry preceded by a comma
exactly when its declared index is positive (so an omitted first field
still leaves a leading comma); a tag name overrides the field name; an
anonymous untagged embedded struct contributes its own brace-enclosed
rendering with no key. -/
theorem C4_struct_rendering :
    ∀ (sl : StdLogger) (fields : List GoField),
    sl.prettifyValue (.vStruct fields) = "\x7b" ++ structBodySpec sl fields ++ "\x7d" := by
  intro sl fields
  simp only [StdLogger.prettifyValue, prettifyValueCore]
  rw [structBody_enum sl fields 0]
  rfl

/-- C5: strings render double-quoted; the full escaping pass applies exactly
when the string holds a non-printable character, a backslash or a double
quote, otherwise the string is wrapped unmodified in bare quotes;
`render("plain") = "\"plain\""` and a string holding `"` gets `\"`. -/
theorem C5_string_quoting :
    ∀ (sl : StdLogger) (s : String),
    ((∃ c ∈ s.data, ¬goIsPrint c = true ∨ c = '\\' ∨ c = '"') →
        sl.prettifyValue (.vString s) = goQuote s) ∧
    ((¬∃ c ∈ s.data, ¬goIsPrint c = true ∨ c = '\\' ∨ c = '"') →
        sl.prettifyValue (.vString s) = "\"" ++ s ++ "\"") ∧
    sl.prettifyValue (.vString "plain") = "\"plain\"" ∧
    sl.prettifyValue (.vString "a\"b") = "\"a\\\"b\"" := by
  intro sl s
  have hpv : ∀ t, sl.prettifyValue (.vString t) = sl.prettify t := by
    intro t; simp [StdLogger.prettifyValue, prettifyValueCore]
  refine ⟨?_, ?_, ?_, ?_⟩
  · intro hex
    rw [hpv, StdLogger.prettify, if_pos ((escape_iff sl s).2 hex)]
  · intro hnex
    have : ¬sl.escape s = true := fun h => hnex ((escape_iff sl s).1 h)
    rw [hpv, StdLogger.prettify, if_neg this]
  · rw [hpv]; simp [StdLogger.prettify, StdLogger.escape, goIsPrint]
  · rw [hpv]
    simp [StdLogger.prettify, StdLogger.escape, goIsPrint, goQuote,
      quoteChar, String.join, String.singleton]
    decide

/-- Witness for C5 at concrete inputs. -/
theorem C5_string_quoting_witness :
    (NewLogger "info" "" "keyvalue").prettifyValue (.vString "a\"b") = goQuote "a\"b" ∧
    (NewLogger "info" "" "keyvalue").prettifyValue (.vString "plain")
      = "\"" ++ "plain" ++ "\"" :=
  ⟨(C5_string_quoting (NewLogger "info" "" "keyvalue") "a\"b").1
      ⟨'"', by decide, by decide⟩,
   (C5_string_quoting (NewLogger "info" "" "keyvalue") "plain").2.1 (by decide)⟩

/-- C6: normalization turns every non-string key into its rendered value
truncated to at most 16 characters (string keys and all values untouched,
after sentinel padding), and the truncation bound really is 16. -/
theorem C6_key_normalization :
    ∀ (sl : StdLogger) (l : List GoValue),
    sl.rectify l = rectifySpec sl l ∧ ∀ v : GoValue, (sl.stringify v).length ≤ 16 := by
  intro sl l
  refine ⟨rectify_eq_spec sl l, ?_⟩
  intro v
  rw [stringify_eq_take]
  simp [String.length_mk]

/-- C7 counterexample: for the odd-length list `[5]` (a non-string key),
normalization returns `["5", "[n/a]"]`, which is not the input with the
sentinel appended — the key was also stringified. -/
theorem C7_counterexample :
    (NewLogger "info" "" "keyvalue").rectify [.vInt 5]
      = [.vString "5", .vString "[n/a]"] ∧
    (NewLogger "info" "" "keyvalue").rectify [.vInt 5]
      ≠ [.vInt 5, .vString "[n/a]"] := by
  constructor <;>
    simp [StdLogger.rectify, rectifyLoop, coerceKey, StdLogger.nonStringKey,
      StdLogger.stringify, StdLogger.prettifyValue, prettifyValueCore, noVal] <;>
    decide

/-- C7 amended: for every odd-length list, normalization returns the input
with non-string keys stringified and the sentinel `"[n/a]"` appended as the
final value — even length, nothing dropped. -/
theorem C7_odd_padding :
    ∀ (sl : StdLogger) (l : List GoValue), l.length % 2 = 1 →
    sl.rectify l =
      (List.enumFrom 0 l).map (fun p => if p.1 % 2 = 0 then keySpec sl p.2 else p.2)
        ++ [.vString noVal] ∧
    (sl.rectify l).length = l.length + 1 ∧
    (sl.rectify l).getLast? = some (.vString noVal) := by
  intro sl l hodd
  have hmain : sl.rectify l =
      (List.enumFrom 0 l).map (fun p => if p.1 % 2 = 0 then keySpec sl p.2 else p.2)
        ++ [.vString noVal] := by
    have hpad : sl.rectify l = rectifyLoop sl (l ++ [.vString noVal]) := by
      unfold StdLogger.rectify
      simp [hodd]
    have henum := rectifyLoop_enum sl (l ++ [GoValue.vString noVal]) 0 rfl
    rw [hpad, henum, List.enumFrom_append]
    have hsingle : List.enumFrom (0 + l.length) [GoValue.vString noVal]
        = [(l.length, GoValue.vString noVal)] := by simp [List.enumFrom]
    rw [hsingle]
    simp [keySpec]
  refine ⟨hmain, ?_, ?_⟩
  · rw [hmain]
    simp [List.enumFrom_length]
  · rw [hmain, List.getLast?_concat]

/-- Witness for C7 at the concrete odd-length input `["k"]`. -/
theorem C7_odd_padding_witness :
    ((NewLogger "info" "" "keyvalue").rectify [.vString "k"]).length = 2 ∧
    ((NewLogger "info" "" "keyvalue").rectify [.vString "k"]).getLast?
      = some (.vString noVal) :=
  ⟨(C7_odd_padding (NewLogger "info" "" "keyvalue") [.vString "k"] (by decide)).2.1,
   (C7_odd_padding (NewLogger "info" "" "keyvalue") [.vString "k"] (by decide)).2.2⟩

/-- C8: rendering is a total function; a value of any unmatched kind
renders as the quoted placeholder naming its kind, and a map key whose
`MarshalText` fails renders inline as the quoted
`<error-MarshalText: ...>` text instead of aborting the line. -/
theorem C8_total_fallbacks :
    ∀ (sl : StdLogger) (kind : String) (b : Bool) (msg : String) (v : GoValue),
    sl.prettifyValue (.vOther kind) = "\"[" ++ kind ++ "]\"" ∧
    sl.prettifyValue (.vMap b [.marshalKeyErr msg v]) =
      "\x7b" ++ sl.prettify ("<error-MarshalText: " ++ msg ++ ">") ++ ":"
        ++ sl.prettifyValue v ++ "\x7d" ∧
    (NewLogger "info" "" "keyvalue").prettifyValue
        (.vMap true [.marshalKeyErr "boom" (.vInt 1)])
      = "\x7b\"<error-MarshalText: boom>\":1\x7d" := by
  intro sl kind b msg v
  refine ⟨?_, ?_, ?_⟩
  · simp [StdLogger.prettifyValue, prettifyValueCore]
  · simp [StdLogger.prettifyValue, prettifyValueCore, mapBody, mapEntryStr,
      String.append_assoc]
  · simp [StdLogger.prettifyValue, prettifyValueCore, mapBody, mapEntryStr,
      StdLogger.prettify, StdLogger.escape, goIsPrint]
    decide

/-- C9: the implicit fields of every `Error` call carry an `error` key right
after the `msg` field, holding the message of the error when one is supplied and
the nil interface (rendered `null`) otherwise; each call appends exactly
one line to the sink (and, in Go, returns nothing). -/
theorem C9_error_field :
    ∀ (sl : StdLogger) (ts msg e : String) (err : Option String)
      (st : LogState) (kv : List GoValue),
    (∃ pre, sl.errorArgs ts msg err =
        pre ++ [.vString "msg", .vString msg, .vString "error", errVal err]) ∧
    errVal (Option.some e) = .vString e ∧
    sl.prettifyValue (errVal Option.none) = "null" ∧
    (st.Error ts err msg kv).sink.length = st.sink.length + 1 := by
  intro sl ts msg e err st kv
  refine ⟨?_, rfl, ?_, ?_⟩
  · refine ⟨(if sl.jsonOutput then [.vString "logger", .vString sl.pfx] else [])
      ++ [.vString "ts", .vString ts], ?_⟩
    simp [StdLogger.errorArgs, StdLogger.messageArgs]
  · simp [errVal, StdLogger.prettifyValue, prettifyValueCore]
  · simp [LogState.Error]

/-- C10: value rendering never reads the logger state, so the rendered
text of any value is byte-identical across output modes (and any other
logger configuration); at the pair level the mode only selects the
key/value delimiter. -/
theorem C10_render_mode_independent :
    ∀ (sl sl' : StdLogger) (v : GoValue) (k : String),
    sl.prettifyValue v = sl'.prettifyValue v ∧
    sl.makeFlat [.vString k, v] false true
      = sl.prettify k ++ (if sl.jsonOutput then ":" else "=") ++ sl.prettifyValue v := by
  intro sl sl' v k
  refine ⟨prettifyValue_indep sl sl' v, ?_⟩
  simp [StdLogger.makeFlat, makeFlatLoop, String.append_assoc]

end BaseLog
